import Mathlib

/-!
Verification of the DIU lakeside visualization program.

The program is a single Python file driving an animated 2D scene.  The
development below embeds, in exact arithmetic, the scan-conversion
algorithms (the DDA line, the midpoint circle), the glyph renderers, and
the per-tick animation updates of the main loop, and proves the behavioral
properties stated for them.  Machine floats are modelled by rational
numbers, so every arithmetic step of the source is reproduced exactly.
-/

set_option maxRecDepth 8000

namespace LakeSide

/-! ## Rounding as performed by the host language

The source rounds with the built-in round function, which rounds halves to
the even neighbour, and truncates with the built-in int cast, which for
nonnegative arguments is the floor. -/

/-- Truncation toward zero, the int cast of the source language. -/
def pyInt (q : ℚ) : ℤ :=
  if q < 0 then ⌈q⌉ else ⌊q⌋

/-- Round half to even, the rounding used by the round built-in of the
source language. -/
def pyRound (q : ℚ) : ℤ :=
  if q - ⌊q⌋ < 1/2 then ⌊q⌋
  else if 1/2 < q - ⌊q⌋ then ⌊q⌋ + 1
  else if Even ⌊q⌋ then ⌊q⌋ else ⌊q⌋ + 1

theorem pyInt_intCast (n : ℤ) : pyInt (n : ℚ) = n := by
  simp [pyInt]

theorem pyRound_intCast (n : ℤ) : pyRound (n : ℚ) = n := by
  simp [pyRound]

/-! ## The DDA line algorithm, from draw_line_dda

The source computes dx, dy, truncates max(|dx|, |dy|) to an integer number
of steps, and emits steps + 1 points obtained by repeatedly adding the
per-step increments and rounding each sample; with zero steps it emits the
unrounded start point only. -/

/-- Number of steps of draw_line_dda: the int cast of max(|dx|, |dy|);
the argument is nonnegative so the cast truncates to the floor. -/
def ddaSteps (x1 y1 x2 y2 : ℚ) : ℕ :=
  (pyInt (max |x2 - x1| |y2 - y1|)).toNat

/-- The emission loop of draw_line_dda: n iterations, each plotting the
rounded current sample and then advancing by the per-step increments. -/
def ddaLoop (x y xinc yinc : ℚ) : ℕ → List (ℚ × ℚ)
  | 0 => []
  | n + 1 => ((pyRound x : ℚ), (pyRound y : ℚ)) :: ddaLoop (x + xinc) (y + yinc) xinc yinc n

/-- The points plotted by draw_line_dda.  With zero steps the start point
is plotted unrounded, exactly as in the source. -/
def drawLineDda (x1 y1 x2 y2 : ℚ) : List (ℚ × ℚ) :=
  let dx := x2 - x1
  let dy := y2 - y1
  let steps := ddaSteps x1 y1 x2 y2
  if steps = 0 then [(x1, y1)]
  else ddaLoop x1 y1 (dx / steps) (dy / steps) (steps + 1)

theorem ddaLoop_length (x y xinc yinc : ℚ) (n : ℕ) :
    (ddaLoop x y xinc yinc n).length = n := by
  induction n generalizing x y with
  | zero => rfl
  | succ n ih => simp [ddaLoop, ih]

theorem ddaLoop_getElem (x y xinc yinc : ℚ) (n k : ℕ) (hk : k < n) :
    (ddaLoop x y xinc yinc n).get ⟨k, by simpa [ddaLoop_length] using hk⟩ =
      ((pyRound (x + k * xinc) : ℚ), (pyRound (y + k * yinc) : ℚ)) := by
  induction n generalizing x y k with
  | zero => omega
  | succ n ih =>
    cases k with
    | zero => simp [ddaLoop]
    | succ k =>
      have hk' : k < n := by omega
      have := ih (x + xinc) (y + yinc) k hk'
      simpa [ddaLoop, add_assoc, add_mul, one_mul, add_comm, add_left_comm] using this

/-! ## The midpoint circle algorithm, from draw_circle_midpoint

With fill set to false, the source runs the decision-variable loop from
x = 0, y = radius, d = 1 - radius, plotting the eight symmetric points
each iteration and stopping as soon as x exceeds y. -/

/-- The eight symmetric points plotted per iteration, from
plot_circle_points in the source. -/
def plot8 (cx cy : ℚ) (x y : ℤ) : List (ℚ × ℚ) :=
  [(cx + x, cy + y), (cx - x, cy + y), (cx + x, cy - y), (cx - x, cy - y),
   (cx + y, cy + x), (cx - y, cy + x), (cx + y, cy - x), (cx - y, cy - x)]

/-- The while loop of the outline branch of draw_circle_midpoint.  It
terminates exactly when x exceeds y. -/
def midLoop (cx cy : ℚ) (x y d : ℤ) : List (ℚ × ℚ) :=
  if _hxy : x ≤ y then
    plot8 cx cy x y ++
      (if d < 0 then midLoop cx cy (x + 1) y (d + 2 * x + 3)
       else midLoop cx cy (x + 1) (y - 1) (d + 2 * (x - y) + 5))
  else []
termination_by (y + 1 - x).toNat
decreasing_by
  · omega
  · omega

/-- The point list emitted by draw_circle_midpoint with fill set to
false. -/
def midpointOutline (cx cy : ℚ) (r : ℤ) : List (ℚ × ℚ) :=
  midLoop cx cy 0 r (1 - r)

/-- The eight octant reflections about a center, acting on plotted
points. -/
def octMaps (cx cy : ℚ) : List ((ℚ × ℚ) → (ℚ × ℚ)) :=
  [fun p => p,
   fun p => (2 * cx - p.1, p.2),
   fun p => (p.1, 2 * cy - p.2),
   fun p => (2 * cx - p.1, 2 * cy - p.2),
   fun p => (cx + (p.2 - cy), cy + (p.1 - cx)),
   fun p => (cx - (p.2 - cy), cy + (p.1 - cx)),
   fun p => (cx + (p.2 - cy), cy - (p.1 - cx)),
   fun p => (cx - (p.2 - cy), cy - (p.1 - cx))]

theorem midLoop_of_le (cx cy : ℚ) (x y d : ℤ) (h : x ≤ y) :
    midLoop cx cy x y d =
      plot8 cx cy x y ++
        (if d < 0 then midLoop cx cy (x + 1) y (d + 2 * x + 3)
         else midLoop cx cy (x + 1) (y - 1) (d + 2 * (x - y) + 5)) := by
  rw [midLoop]
  simp [h]

theorem midLoop_of_gt (cx cy : ℚ) (x y d : ℤ) (h : y < x) :
    midLoop cx cy x y d = [] := by
  rw [midLoop]
  simp [show ¬x ≤ y by omega]

theorem plot8_closed (cx cy : ℚ) (x y : ℤ) :
    ∀ p ∈ plot8 cx cy x y, ∀ f ∈ octMaps cx cy, f p ∈ plot8 cx cy x y := by
  intro p hp f hf
  simp only [octMaps, List.mem_cons, List.not_mem_nil, or_false] at hf
  simp only [plot8, List.mem_cons, List.not_mem_nil, or_false] at hp
  rcases hf with rfl | rfl | rfl | rfl | rfl | rfl | rfl | rfl <;>
    rcases hp with rfl | rfl | rfl | rfl | rfl | rfl | rfl | rfl <;>
    · simp only [plot8, List.mem_cons, List.not_mem_nil, or_false, Prod.mk.injEq]
      try ring_nf
      try simp

theorem midLoop_closed (cx cy : ℚ) :
    ∀ x y d : ℤ, ∀ p ∈ midLoop cx cy x y d, ∀ f ∈ octMaps cx cy,
      f p ∈ midLoop cx cy x y d := by
  intro x y d
  induction x, y, d using midLoop.induct cx cy with
  | case1 x y d hxy ih1 ih2 =>
    intro p hp f hf
    rw [midLoop_of_le cx cy x y d hxy] at hp ⊢
    rcases List.mem_append.mp hp with h8 | hrec
    · exact List.mem_append_left _ (plot8_closed cx cy x y p h8 f hf)
    · refine List.mem_append_right _ ?_
      by_cases hd : d < 0
      · rw [if_pos hd] at hrec ⊢
        exact ih1 p hrec f hf
      · rw [if_neg hd] at hrec ⊢
        exact ih2 p hrec f hf
  | case2 x y d hxy =>
    intro p hp
    rw [midLoop_of_gt cx cy x y d (by omega)] at hp
    simp at hp

/-- Each plotted point of one loop iteration lies at squared distance
x² + y² from the center. -/
theorem plot8_dist (cx cy : ℚ) (x y : ℤ) :
    ∀ p ∈ plot8 cx cy x y, (p.1 - cx) ^ 2 + (p.2 - cy) ^ 2 = (x : ℚ) ^ 2 + (y : ℚ) ^ 2 := by
  intro p hp
  simp only [plot8, List.mem_cons, List.not_mem_nil, or_false] at hp
  rcases hp with rfl | rfl | rfl | rfl | rfl | rfl | rfl | rfl <;> ring

/-- Loop invariant of the decision variable together with the outside
bound: along the loop, d equals (x+1)² + y² - y - r², and every state
satisfies r² - y ≤ x² + y², so every plotted point lies at squared
distance at least (r-1)² from the center. -/
theorem midLoop_dist (cx cy : ℚ) (r : ℤ) (hr : 1 ≤ r) :
    ∀ x y d : ℤ, 0 ≤ x → y ≤ r →
      d = (x + 1) ^ 2 + y ^ 2 - y - r ^ 2 →
      r ^ 2 - y ≤ x ^ 2 + y ^ 2 →
      ∀ p ∈ midLoop cx cy x y d,
        ((r : ℚ) - 1) ^ 2 ≤ (p.1 - cx) ^ 2 + (p.2 - cy) ^ 2 := by
  intro x y d
  induction x, y, d using midLoop.induct cx cy with
  | case1 x y d hxy ih1 ih2 =>
    intro hx hy hd hinv p hp
    rw [midLoop_of_le cx cy x y d hxy] at hp
    rcases List.mem_append.mp hp with h8 | hrec
    · have key : ((r - 1) ^ 2 : ℤ) ≤ x ^ 2 + y ^ 2 := by nlinarith [hinv, hy, hr]
      have keyQ : ((r : ℚ) - 1) ^ 2 ≤ (x : ℚ) ^ 2 + (y : ℚ) ^ 2 := by
        exact_mod_cast key
      rw [plot8_dist cx cy x y p h8]
      exact keyQ
    · by_cases hdlt : d < 0
      · rw [if_pos hdlt] at hrec
        refine ih1 (by omega) hy (by rw [hd]; ring) ?_ p hrec
        nlinarith [hinv, hx]
      · rw [if_neg hdlt] at hrec
        have hd0 : 0 ≤ (x + 1) ^ 2 + y ^ 2 - y - r ^ 2 := by rw [← hd]; omega
        refine ih2 (by omega) (by omega) (by rw [hd]; ring) ?_ p hrec
        nlinarith [hd0]
  | case2 x y d hxy =>
    intro _ _ _ _ p hp
    rw [midLoop_of_gt cx cy x y d (by omega)] at hp
    simp at hp

/-! ## The two text renderers

Both draw_text_dda and draw_text_midpoint_circle first uppercase the
whole input string and then look each character up in their glyph table,
drawing nothing and advancing nothing for characters that are absent
(space only advances the cursor).  The uppercase map is modelled on the
ASCII range, the only range the program uses. -/

/-- The ASCII lowercase letters paired with their uppercase forms. -/
def asciiLowerUpper : List (Char × Char) :=
  [('a', 'A'), ('b', 'B'), ('c', 'C'), ('d', 'D'), ('e', 'E'), ('f', 'F'),
   ('g', 'G'), ('h', 'H'), ('i', 'I'), ('j', 'J'), ('k', 'K'), ('l', 'L'),
   ('m', 'M'), ('n', 'N'), ('o', 'O'), ('p', 'P'), ('q', 'Q'), ('r', 'R'),
   ('s', 'S'), ('t', 'T'), ('u', 'U'), ('v', 'V'), ('w', 'W'), ('x', 'X'),
   ('y', 'Y'), ('z', 'Z')]

/-- The uppercase map applied by the upper method of the host language,
modelled on the ASCII range used by the program. -/
def pyUpper (c : Char) : Char :=
  (asciiLowerUpper.lookup c).getD c

/-- Line-segment glyph table of draw_text_dda, keyed by uppercase letter. -/
def letterLines : Char → Option (List (ℤ × ℤ × ℤ × ℤ))
  | 'D' => some [(0, 7, 0, 0), (0, 7, 3, 7), (3, 7, 4, 6), (4, 6, 4, 1), (4, 1, 3, 0), (3, 0, 0, 0)]
  | 'A' => some [(0, 0, 2, 7), (2, 7, 4, 0), (1, 3, 3, 3)]
  | 'F' => some [(0, 0, 0, 7), (0, 7, 4, 7), (0, 4, 3, 4)]
  | 'O' => some [(1, 7, 3, 7), (0, 6, 0, 1), (4, 6, 4, 1), (1, 0, 3, 0), (0, 6, 1, 7), (3, 7, 4, 6), (0, 1, 1, 0), (3, 0, 4, 1)]
  | 'I' => some [(0, 7, 4, 7), (2, 7, 2, 0), (0, 0, 4, 0)]
  | 'L' => some [(0, 7, 0, 0), (0, 0, 4, 0)]
  | 'N' => some [(0, 0, 0, 7), (0, 7, 4, 0), (4, 0, 4, 7)]
  | 'T' => some [(0, 7, 4, 7), (2, 7, 2, 0)]
  | 'E' => some [(0, 7, 0, 0), (0, 7, 4, 7), (0, 4, 3, 4), (0, 0, 4, 0)]
  | 'R' => some [(0, 0, 0, 7), (0, 7, 3, 7), (3, 7, 4, 6), (4, 6, 4, 4), (4, 4, 3, 3), (3, 3, 0, 3), (2, 3, 4, 0)]
  | 'S' => some [(4, 6, 3, 7), (3, 7, 1, 7), (1, 7, 0, 6), (0, 6, 0, 4), (0, 4, 1, 3), (1, 3, 3, 3), (3, 3, 4, 2), (4, 2, 4, 1), (4, 1, 3, 0), (3, 0, 1, 0), (1, 0, 0, 1)]
  | 'U' => some [(0, 7, 0, 1), (0, 1, 1, 0), (1, 0, 3, 0), (3, 0, 4, 1), (4, 1, 4, 7)]
  | 'V' => some [(0, 7, 2, 0), (2, 0, 4, 7)]
  | 'Y' => some [(0, 7, 2, 4), (4, 7, 2, 4), (2, 4, 2, 0)]
  | _ => none

/-- Dot glyph table of draw_text_midpoint_circle, keyed by uppercase letter. -/
def letterCircles : Char → Option (List (ℤ × ℤ × ℤ))
  | 'D' => some [(0, 0, 1), (0, 1, 1), (0, 2, 1), (0, 3, 1), (0, 4, 1), (0, 5, 1), (0, 6, 1), (0, 7, 1), (1, 7, 1), (2, 7, 1), (3, 6, 1), (3, 5, 1), (3, 4, 1), (3, 3, 1), (3, 2, 1), (3, 1, 1), (2, 0, 1), (1, 0, 1)]
  | 'I' => some [(0, 7, 1), (1, 7, 1), (2, 7, 1), (3, 7, 1), (4, 7, 1), (2, 6, 1), (2, 5, 1), (2, 4, 1), (2, 3, 1), (2, 2, 1), (2, 1, 1), (0, 0, 1), (1, 0, 1), (2, 0, 1), (3, 0, 1), (4, 0, 1)]
  | 'U' => some [(0, 7, 1), (0, 6, 1), (0, 5, 1), (0, 4, 1), (0, 3, 1), (0, 2, 1), (0, 1, 1), (1, 0, 1), (2, 0, 1), (3, 0, 1), (4, 1, 1), (4, 2, 1), (4, 3, 1), (4, 4, 1), (4, 5, 1), (4, 6, 1), (4, 7, 1)]
  | 'L' => some [(0, 7, 1), (0, 6, 1), (0, 5, 1), (0, 4, 1), (0, 3, 1), (0, 2, 1), (0, 1, 1), (0, 0, 1), (1, 0, 1), (2, 0, 1), (3, 0, 1), (4, 0, 1)]
  | 'A' => some [(2, 7, 1), (1, 6, 1), (3, 6, 1), (0, 5, 1), (4, 5, 1), (0, 4, 1), (4, 4, 1), (0, 3, 1), (1, 3, 1), (2, 3, 1), (3, 3, 1), (4, 3, 1), (0, 2, 1), (4, 2, 1), (0, 1, 1), (4, 1, 1), (0, 0, 1), (4, 0, 1)]
  | 'K' => some [(0, 7, 1), (0, 6, 1), (0, 5, 1), (0, 4, 1), (0, 3, 1), (0, 2, 1), (0, 1, 1), (0, 0, 1), (3, 7, 1), (2, 6, 1), (1, 5, 1), (1, 4, 1), (2, 3, 1), (3, 2, 1), (4, 1, 1), (4, 0, 1)]
  | 'E' => some [(0, 7, 1), (1, 7, 1), (2, 7, 1), (3, 7, 1), (4, 7, 1), (0, 6, 1), (0, 5, 1), (0, 4, 1), (1, 4, 1), (2, 4, 1), (3, 4, 1), (0, 3, 1), (0, 2, 1), (0, 1, 1), (0, 0, 1), (1, 0, 1), (2, 0, 1), (3, 0, 1), (4, 0, 1)]
  | 'S' => some [(1, 7, 1), (2, 7, 1), (3, 7, 1), (4, 7, 1), (0, 6, 1), (0, 5, 1), (0, 4, 1), (1, 4, 1), (2, 4, 1), (3, 4, 1), (4, 3, 1), (4, 2, 1), (4, 1, 1), (0, 0, 1), (1, 0, 1), (2, 0, 1), (3, 0, 1)]
  | 'V' => some [(0, 7, 1), (0, 6, 1), (0, 5, 1), (1, 4, 1), (1, 3, 1), (1, 2, 1), (2, 1, 1), (2, 0, 1), (3, 2, 1), (3, 3, 1), (3, 4, 1), (4, 5, 1), (4, 6, 1), (4, 7, 1)]
  | 'Z' => some [(0, 7, 1), (1, 7, 1), (2, 7, 1), (3, 7, 1), (4, 7, 1), (4, 6, 1), (3, 5, 1), (2, 4, 1), (1, 3, 1), (0, 2, 1), (0, 1, 1), (0, 0, 1), (1, 0, 1), (2, 0, 1), (3, 0, 1), (4, 0, 1)]
  | 'T' => some [(0, 7, 1), (1, 7, 1), (2, 7, 1), (3, 7, 1), (4, 7, 1), (2, 6, 1), (2, 5, 1), (2, 4, 1), (2, 3, 1), (2, 2, 1), (2, 1, 1), (2, 0, 1)]
  | 'O' => some [(1, 7, 1), (2, 7, 1), (3, 7, 1), (0, 6, 1), (4, 6, 1), (0, 5, 1), (4, 5, 1), (0, 4, 1), (4, 4, 1), (0, 3, 1), (4, 3, 1), (0, 2, 1), (4, 2, 1), (0, 1, 1), (4, 1, 1), (1, 0, 1), (2, 0, 1), (3, 0, 1)]
  | 'N' => some [(0, 7, 1), (0, 6, 1), (0, 5, 1), (0, 4, 1), (0, 3, 1), (0, 2, 1), (0, 1, 1), (0, 0, 1), (1, 6, 1), (2, 5, 1), (2, 4, 1), (3, 3, 1), (3, 2, 1), (4, 7, 1), (4, 6, 1), (4, 5, 1), (4, 4, 1), (4, 3, 1), (4, 2, 1), (4, 1, 1), (4, 0, 1)]
  | 'M' => some [(0, 0, 1), (0, 1, 1), (0, 2, 1), (0, 3, 1), (0, 4, 1), (0, 5, 1), (0, 6, 1), (0, 7, 1), (1, 6, 1), (2, 5, 1), (3, 6, 1), (4, 0, 1), (4, 1, 1), (4, 2, 1), (4, 3, 1), (4, 4, 1), (4, 5, 1), (4, 6, 1), (4, 7, 1)]
  | 'H' => some [(0, 7, 1), (0, 6, 1), (0, 5, 1), (0, 4, 1), (0, 3, 1), (0, 2, 1), (0, 1, 1), (0, 0, 1), (1, 4, 1), (2, 4, 1), (3, 4, 1), (4, 7, 1), (4, 6, 1), (4, 5, 1), (4, 4, 1), (4, 3, 1), (4, 2, 1), (4, 1, 1), (4, 0, 1)]
  | 'R' => some [(0, 7, 1), (0, 6, 1), (0, 5, 1), (0, 4, 1), (0, 3, 1), (0, 2, 1), (0, 1, 1), (0, 0, 1), (1, 7, 1), (2, 7, 1), (3, 6, 1), (3, 5, 1), (3, 4, 1), (2, 4, 1), (1, 4, 1), (2, 3, 1), (3, 2, 1), (4, 1, 1), (4, 0, 1)]
  | 'F' => some [(0, 7, 1), (0, 6, 1), (0, 5, 1), (0, 4, 1), (0, 3, 1), (0, 2, 1), (0, 1, 1), (0, 0, 1), (1, 7, 1), (2, 7, 1), (3, 7, 1), (4, 7, 1), (1, 4, 1), (2, 4, 1), (3, 4, 1)]
  | 'G' => some [(1, 7, 1), (2, 7, 1), (3, 7, 1), (4, 7, 1), (0, 6, 1), (0, 5, 1), (0, 4, 1), (0, 3, 1), (0, 2, 1), (0, 1, 1), (1, 0, 1), (2, 0, 1), (3, 0, 1), (4, 1, 1), (4, 2, 1), (4, 3, 1), (3, 3, 1), (2, 3, 1)]
  | 'P' => some [(0, 7, 1), (0, 6, 1), (0, 5, 1), (0, 4, 1), (0, 3, 1), (0, 2, 1), (0, 1, 1), (0, 0, 1), (1, 7, 1), (2, 7, 1), (3, 7, 1), (4, 6, 1), (4, 5, 1), (4, 4, 1), (3, 4, 1), (2, 4, 1), (1, 4, 1)]
  | 'X' => some [(0, 7, 1), (0, 6, 1), (1, 5, 1), (2, 4, 1), (1, 3, 1), (0, 2, 1), (0, 1, 1), (0, 0, 1), (4, 7, 1), (4, 6, 1), (3, 5, 1), (3, 3, 1), (4, 2, 1), (4, 1, 1), (4, 0, 1)]
  | 'Y' => some [(0, 7, 1), (0, 6, 1), (1, 5, 1), (2, 4, 1), (2, 3, 1), (2, 2, 1), (2, 1, 1), (2, 0, 1), (4, 7, 1), (4, 6, 1), (3, 5, 1)]
  | 'B' => some [(0, 7, 1), (0, 6, 1), (0, 5, 1), (0, 4, 1), (0, 3, 1), (0, 2, 1), (0, 1, 1), (0, 0, 1), (1, 7, 1), (2, 7, 1), (3, 6, 1), (3, 5, 1), (2, 4, 1), (1, 4, 1), (2, 4, 1), (3, 4, 1), (3, 3, 1), (3, 2, 1), (3, 1, 1), (2, 0, 1), (1, 0, 1)]
  | 'W' => some [(0, 7, 1), (0, 6, 1), (0, 5, 1), (0, 4, 1), (0, 3, 1), (0, 2, 1), (0, 1, 1), (0, 0, 1), (1, 1, 1), (2, 2, 1), (3, 1, 1), (4, 7, 1), (4, 6, 1), (4, 5, 1), (4, 4, 1), (4, 3, 1), (4, 2, 1), (4, 1, 1), (4, 0, 1)]
  | _ => none

/-- Concatenation of the lists produced by f over a list, in order; the
two renderers use it for their nested loops. -/
def catMap (f : α → List β) : List α → List β
  | [] => []
  | a :: as => f a ++ catMap f as

/-- Character loop of draw_text_dda: for each supported character, nine
offset copies of every glyph segment are passed to the DDA line; the
cursor advance follows the source literally. -/
def ddaCalls (x y scale spacing : ℚ) : List Char → ℚ → List (ℚ × ℚ × ℚ × ℚ)
  | [], _ => []
  | c :: rest, off =>
    match letterLines (pyUpper c) with
    | some segs =>
        catMap (fun s =>
          catMap (fun dx => catMap (fun dy =>
              [(x + off + s.1 * scale * 1.5 + dx, y + s.2.1 * scale * 1.2 + dy,
                x + off + s.2.2.1 * scale * 1.5 + dx, y + s.2.2.2 * scale * 1.2 + dy)])
            ([0, 1, 2] : List ℚ)) ([0, 1, 2] : List ℚ)) segs
          ++ ddaCalls x y scale spacing rest (off + 6 * scale * 1.5 * spacing)
    | none =>
        if pyUpper c = ' ' then ddaCalls x y scale spacing rest (off + 5 * scale * 1.5 * spacing)
        else ddaCalls x y scale spacing rest off

/-- The DDA line calls issued by draw_text_dda, each recorded as the two
endpoints of the requested line. -/
def drawTextDda (text : List Char) (x y scale spacing : ℚ) : List (ℚ × ℚ × ℚ × ℚ) :=
  ddaCalls x y scale spacing text 0

/-- Character loop of draw_text_midpoint_circle: each glyph dot becomes
four overlapping filled-circle calls; the cursor advance follows the
source literally. -/
def mcCalls (x y scale : ℚ) : List Char → ℚ → List (ℚ × ℚ × ℚ)
  | [], _ => []
  | c :: rest, off =>
    match letterCircles (pyUpper c) with
    | some dots =>
        catMap (fun t =>
          [(x + off + t.1 * scale * 2, y + t.2.1 * scale * 2, t.2.2 * scale * 1.8),
           (x + off + t.1 * scale * 2 + 0.5, y + t.2.1 * scale * 2, t.2.2 * scale * 1.8),
           (x + off + t.1 * scale * 2, y + t.2.1 * scale * 2 + 0.5, t.2.2 * scale * 1.8),
           (x + off + t.1 * scale * 2 + 0.5, y + t.2.1 * scale * 2 + 0.5, t.2.2 * scale * 1.8)]) dots
          ++ mcCalls x y scale rest (off + 7 * scale * 2)
    | none =>
        if pyUpper c = ' ' then mcCalls x y scale rest (off + 5 * scale * 2)
        else mcCalls x y scale rest off

/-- The filled-circle calls issued by draw_text_midpoint_circle, each
recorded as center and radius. -/
def drawTextMidpointCircle (text : List Char) (x y scale : ℚ) : List (ℚ × ℚ × ℚ) :=
  mcCalls x y scale text 0

/-! ## The filled-circle fan, from draw_circle

The fill branch of draw_circle_midpoint delegates to draw_circle, which
always emits a triangle fan of the center vertex followed by segments + 1
boundary samples placed by trigonometry, with no radius guard. -/

/-- The vertices emitted by draw_circle: the center, then segments + 1
boundary samples. -/
noncomputable def drawCircleFan (cx cy radius : ℝ) (segments : ℕ) : List (ℝ × ℝ) :=
  (cx, cy) ::
    (List.range (segments + 1)).map (fun (i : ℕ) =>
      (cx + radius * Real.cos (2 * Real.pi * (i : ℝ) / (segments : ℝ)),
       cy + radius * Real.sin (2 * Real.pi * (i : ℝ) / (segments : ℝ))))

/-! ## The per-tick animation updates, from main

Every update below transcribes one block of the update section of the
main loop, in exact rational arithmetic. -/

/-- Update of the first bus: advance by 1.2, reset to -200 past
window width + 120 = 1120. -/
def busStep (p : ℚ) : ℚ :=
  let p := p + 1.2
  if p > 1120 then -200 else p

/-- Update of the second bus: advance by 1.0, reset to -200 past 1120. -/
def bus2Step (p : ℚ) : ℚ :=
  let p := p + 1.0
  if p > 1120 then -200 else p

/-- Update of a kayak with the given speed: move left, reset to
window width + 100 = 1100 past -100. -/
def kayakStep (speed p : ℚ) : ℚ :=
  let p := p - speed
  if p < -100 then 1100 else p

/-- Update of the plane: advance by 2.0, reset to -200 past
window width + 200 = 1200. -/
def planeStep (p : ℚ) : ℚ :=
  let p := p + 2.0
  if p > 1200 then -200 else p

/-- Update of the shared cloud offset: advance by 0.08, reset to 0 past
window width + 200 = 1200. -/
def cloudStep (c : ℚ) : ℚ :=
  let c := c + 0.08
  if c > 1200 then 0 else c

/-- Display position of one cloud cluster in draw_clouds: the cluster
base plus the scaled shared offset, wrapped by subtracting
window width + 200 = 1200 once it exceeds window width + 100 = 1100. -/
def cloudClusterX (base mult offset : ℚ) : ℚ :=
  let cx := base + offset * mult
  if cx > 1100 then cx - 1200 else cx

/-- The four cloud cluster bases and offset multipliers of
draw_clouds. -/
def cloudClusters : List (ℚ × ℚ) :=
  [(150, 1.0), (420, 0.8), (750, 1.2), (320, 0.6)]

/-- Modelled from the spec sentence for claim comparison: a cluster
wraps when its scaled offset alone exceeds window width + 200, by
subtracting window width + 200. -/
def cloudClusterXSpec (base mult offset : ℚ) : ℚ :=
  if offset * mult > 1200 then base + offset * mult - 1200 else base + offset * mult

/-- State of one fish: the jump frame (0 when idle) and the idle
timer. -/
structure FishS where
  jump : ℕ
  timer : ℕ
  deriving DecidableEq, Repr

/-- Update of fish number i, from the fish block of the main loop: the
timer always increments first; a jumping fish advances its frame and
resets both counters past frame 40; an idle fish starts jumping once the
timer exceeds 180 + i * 50. -/
def fishTick (i : ℕ) (s : FishS) : FishS :=
  let t := s.timer + 1
  if s.jump > 0 then
    if s.jump + 1 > 40 then ⟨0, 0⟩ else ⟨s.jump + 1, t⟩
  else if t > 180 + i * 50 then ⟨1, t⟩
  else ⟨0, t⟩

/-- Fish state after n ticks from the initial state of the program. -/
def fishIter (i n : ℕ) : FishS :=
  (fishTick i)^[n] ⟨0, 0⟩

/-- Vertical offset of a jumping fish at the given frame, from
draw_jumping_fish: 35 times the sine of pi times frame over 40. -/
noncomputable def jumpHeight (phase : ℕ) : ℝ :=
  35 * Real.sin ((phase / 40 : ℝ) * Real.pi)

/-- The frames at which draw_jumping_fish adds the splash circles. -/
def splashFrames : List ℕ := [1, 2, 3, 37, 38, 39, 40]

/-- Whether draw_jumping_fish draws the splash at the given frame: the
fish must be drawn at all (frame positive) and the frame must be an
entry or exit frame. -/
def drawsSplash (j : ℕ) : Bool :=
  decide (0 < j) && decide (j ∈ splashFrames)

/-- State of the two deer: both positions and the shared direction
sign. -/
structure DeerS where
  d1 : ℚ
  d2 : ℚ
  dir : ℚ
  deriving DecidableEq, Repr

/-- Update of the deer block of the main loop: both deer move by their
own speed times the shared direction, then the direction is negated
exactly when the first deer lies outside the open interval
(280, 450); the second deer is never tested. -/
def deerTick (s : DeerS) : DeerS :=
  let d1 := s.d1 + 0.3 * s.dir
  let d2 := s.d2 + 0.25 * s.dir
  ⟨d1, d2, if d1 > 450 ∨ d1 < 280 then -s.dir else s.dir⟩

/-- Initial deer state of the program. -/
def deerInit : DeerS := ⟨320, 380, 1⟩

/-- Deer state after n ticks from the initial state. -/
def deerIter (n : ℕ) : DeerS :=
  deerTick^[n] deerInit

/-- Position of the first bus after n ticks from its initial
position -200. -/
def busIter (n : ℕ) : ℚ :=
  busStep^[n] (-200)

/-- Shared cloud offset after n ticks from its initial value 0. -/
def cloudIter (n : ℕ) : ℚ :=
  cloudStep^[n] 0

/-! ## The frame loop, from main

The loop polls events first; a quit event or the escape or q key clears
the running flag, but the tick body that follows in the same iteration
still runs in full, and the loop only stops before the next
iteration. -/

/-- The whole mutable animation state of the program. -/
structure AnimState where
  bus : ℚ
  bus2 : ℚ
  kayak1 : ℚ
  kayak2 : ℚ
  kayak3 : ℚ
  plane : ℚ
  fish : Fin 4 → FishS
  deer : DeerS
  cloud : ℚ

/-- One full pass of the update section of the main loop. -/
def tickUpdate (s : AnimState) : AnimState where
  bus := busStep s.bus
  bus2 := bus2Step s.bus2
  kayak1 := kayakStep 0.35 s.kayak1
  kayak2 := kayakStep 0.28 s.kayak2
  kayak3 := kayakStep 0.4 s.kayak3
  plane := planeStep s.plane
  fish := fun i => fishTick i (s.fish i)
  deer := deerTick s.deer
  cloud := cloudStep s.cloud

/-- The initial animation state, from the module-level variables. -/
def animInit : AnimState where
  bus := -200
  bus2 := -600
  kayak1 := 200
  kayak2 := 500
  kayak3 := 800
  plane := -200
  fish := fun _ => ⟨0, 0⟩
  deer := deerInit
  cloud := 0

/-- The frame loop over a trace of per-tick quit observations: every
entered iteration polls, then runs the full tick body; a quit
observation only prevents the next iteration. -/
def frameLoop : List Bool → AnimState → AnimState
  | [], s => s
  | q :: qs, s =>
    let s := tickUpdate s
    if q then s else frameLoop qs s

/-! ## Claim C1: the DDA line -/

theorem ddaLoop_eq_map (x y xinc yinc : ℚ) (n : ℕ) :
    ddaLoop x y xinc yinc n =
      (List.range n).map (fun (k : ℕ) =>
        ((pyRound (x + (k : ℚ) * xinc) : ℚ), (pyRound (y + (k : ℚ) * yinc) : ℚ))) := by
  induction n generalizing x y with
  | zero => rfl
  | succ n ih =>
    rw [ddaLoop, ih (x + xinc) (y + yinc), List.range_succ_eq_map, List.map_cons, List.map_map]
    congr 1
    · simp
    · apply List.map_congr_left
      intro k _
      simp only [Function.comp_apply]
      have h1 : x + xinc + (k : ℚ) * xinc = x + ((k + 1 : ℕ) : ℚ) * xinc := by push_cast; ring
      have h2 : y + yinc + (k : ℚ) * yinc = y + ((k + 1 : ℕ) : ℚ) * yinc := by push_cast; ring
      rw [h1, h2]

theorem ddaSteps_int (x1 y1 x2 y2 : ℤ) :
    ((ddaSteps x1 y1 x2 y2 : ℤ)) = max |x2 - x1| |y2 - y1| := by
  unfold ddaSteps
  have hcast : max |(x2 : ℚ) - (x1 : ℚ)| |(y2 : ℚ) - (y1 : ℚ)|
      = ((max |x2 - x1| |y2 - y1| : ℤ) : ℚ) := by
    push_cast
    rfl
  rw [hcast, pyInt_intCast, Int.toNat_of_nonneg (le_max_of_le_left (abs_nonneg _))]

/-- Claim C1, refutation of the claim as stated: at the endpoint pair
(0, 0) to (3.9, 0) the source truncates 3.9 to 3 steps where the claim
prescribes round(3.9) = 4, and the emitted points jump from x = 1 to
x = 3, a gap of two units in the dominant axis. -/
theorem draw_line_dda_round_gap_counterexample :
    ddaSteps 0 0 (39/10) 0 = 3
    ∧ pyRound (39/10 : ℚ) = 4
    ∧ drawLineDda 0 0 (39/10) 0 = [(0, 0), (1, 0), (3, 0), (4, 0)]
    ∧ ¬ (drawLineDda 0 0 (39/10) 0).Chain' (fun p q => |q.1 - p.1| ≤ 1) := by
  have hsteps : ddaSteps 0 0 (39/10) 0 = 3 := by
    unfold ddaSteps pyInt
    norm_num [abs_of_nonneg]
    rfl
  have hdda : drawLineDda 0 0 (39/10) 0 = [(0, 0), (1, 0), (3, 0), (4, 0)] := by
    rw [drawLineDda, hsteps]
    norm_num
    rw [ddaLoop_eq_map]
    have p0 : pyRound (0 : ℚ) = 0 := by norm_num [pyRound]
    have p1 : pyRound (13/10 : ℚ) = 1 := by norm_num [pyRound]
    have p2 : pyRound (13/5 : ℚ) = 3 := by norm_num [pyRound]
    have p3 : pyRound (39/10 : ℚ) = 4 := by norm_num [pyRound]
    norm_num [List.range_succ, p0, p1, p2, p3]
  refine ⟨hsteps, by norm_num [pyRound], hdda, ?_⟩
  intro h
  rw [hdda] at h
  have h2 := h.tail
  have h3 := List.chain'_cons.mp h2
  have hlt : ¬ (|(3 : ℚ) - 1| ≤ 1) := by norm_num
  exact hlt h3.1

/-- Claim C1, amended: steps is the truncation of max(|dx|, |dy|), not
its rounding; with zero steps exactly the single unrounded point
(x1, y1) is emitted; otherwise steps + 1 points are emitted at the
rounded sampled positions x1 + k dx / steps; and for integer endpoints
the emitted sequence has no gap larger than one unit in the dominant
axis.  The two concrete instances of the claim hold as stated. -/
theorem draw_line_dda_int_endpoints (x1 y1 x2 y2 : ℤ) :
    (ddaSteps x1 y1 x2 y2 : ℤ) = max |x2 - x1| |y2 - y1|
    ∧ (drawLineDda x1 y1 x2 y2).length = ddaSteps x1 y1 x2 y2 + 1
    ∧ (ddaSteps x1 y1 x2 y2 = 0 →
        drawLineDda x1 y1 x2 y2 = [((x1 : ℚ), (y1 : ℚ))] ∧ x2 = x1 ∧ y2 = y1)
    ∧ (0 < ddaSteps x1 y1 x2 y2 →
        drawLineDda x1 y1 x2 y2 =
          (List.range (ddaSteps x1 y1 x2 y2 + 1)).map (fun (k : ℕ) =>
            ((pyRound ((x1 : ℚ) + (k : ℚ) * (((x2 : ℚ) - (x1 : ℚ)) / (ddaSteps x1 y1 x2 y2 : ℚ))) : ℚ),
             (pyRound ((y1 : ℚ) + (k : ℚ) * (((y2 : ℚ) - (y1 : ℚ)) / (ddaSteps x1 y1 x2 y2 : ℚ))) : ℚ))))
    ∧ (|y2 - y1| ≤ |x2 - x1| →
        (drawLineDda x1 y1 x2 y2).Chain' (fun p q => |q.1 - p.1| ≤ 1))
    ∧ (|x2 - x1| ≤ |y2 - y1| →
        (drawLineDda x1 y1 x2 y2).Chain' (fun p q => |q.2 - p.2| ≤ 1))
    ∧ drawLineDda 0 0 10 0 =
        [(0, 0), (1, 0), (2, 0), (3, 0), (4, 0), (5, 0),
         (6, 0), (7, 0), (8, 0), (9, 0), (10, 0)]
    ∧ drawLineDda 0 0 0 0 = [(0, 0)] := by
  have hsteps := ddaSteps_int x1 y1 x2 y2
  have hlen : (drawLineDda x1 y1 x2 y2).length = ddaSteps x1 y1 x2 y2 + 1 := by
    by_cases h0 : ddaSteps (x1 : ℚ) y1 x2 y2 = 0
    · simp [drawLineDda, h0]
    · simp [drawLineDda, h0, ddaLoop_length]
  have hzero : ddaSteps (x1 : ℚ) y1 x2 y2 = 0 →
      drawLineDda x1 y1 x2 y2 = [((x1 : ℚ), (y1 : ℚ))] ∧ x2 = x1 ∧ y2 = y1 := by
    intro h0
    have hm : max |x2 - x1| |y2 - y1| = 0 := by
      rw [← hsteps, h0]
      rfl
    have ha : x2 - x1 = 0 := by
      have h1 : |x2 - x1| ≤ 0 := hm ▸ le_max_left _ _
      have h2 := abs_nonneg (x2 - x1)
      exact abs_eq_zero.mp (le_antisymm h1 h2)
    have hb : y2 - y1 = 0 := by
      have h1 : |y2 - y1| ≤ 0 := hm ▸ le_max_right _ _
      have h2 := abs_nonneg (y2 - y1)
      exact abs_eq_zero.mp (le_antisymm h1 h2)
    exact ⟨by simp [drawLineDda, h0], by omega, by omega⟩
  have hmap : 0 < ddaSteps (x1 : ℚ) y1 x2 y2 →
      drawLineDda x1 y1 x2 y2 =
        (List.range (ddaSteps x1 y1 x2 y2 + 1)).map (fun (k : ℕ) =>
          ((pyRound ((x1 : ℚ) + (k : ℚ) * (((x2 : ℚ) - (x1 : ℚ)) / (ddaSteps x1 y1 x2 y2 : ℚ))) : ℚ),
           (pyRound ((y1 : ℚ) + (k : ℚ) * (((y2 : ℚ) - (y1 : ℚ)) / (ddaSteps x1 y1 x2 y2 : ℚ))) : ℚ))) := by
    intro h0
    have hne : ¬ ddaSteps (x1 : ℚ) y1 x2 y2 = 0 := by omega
    simp only [drawLineDda]
    rw [if_neg hne, ddaLoop_eq_map]
  have coordX : |y2 - y1| ≤ |x2 - x1| → 0 < ddaSteps (x1 : ℚ) y1 x2 y2 →
      ∀ k : ℕ, pyRound ((x1 : ℚ) + (k : ℚ) * (((x2 : ℚ) - (x1 : ℚ)) / (ddaSteps x1 y1 x2 y2 : ℚ)))
        = x1 + (if x1 ≤ x2 then (k : ℤ) else -(k : ℤ)) := by
    intro hdom hpos k
    have h0 : ddaSteps (x1 : ℚ) y1 x2 y2 ≠ 0 := by omega
    have hmaxeq : (ddaSteps (x1 : ℚ) y1 x2 y2 : ℤ) = |x2 - x1| := by
      rw [hsteps]
      exact max_eq_left hdom
    rcases le_or_lt x1 x2 with hge | hlt
    · have hint : ((ddaSteps (x1 : ℚ) y1 x2 y2 : ℕ) : ℤ) = x2 - x1 := by
        rw [hmaxeq]
        exact abs_of_nonneg (by omega)
      have hcq : ((ddaSteps (x1 : ℚ) y1 x2 y2 : ℕ) : ℚ) = (x2 : ℚ) - x1 := by
        exact_mod_cast congrArg (fun z : ℤ => (z : ℚ)) hint
      have hdiv : ((x2 : ℚ) - (x1 : ℚ)) / (ddaSteps (x1 : ℚ) y1 x2 y2 : ℚ) = 1 := by
        rw [hcq]
        refine div_self ?_
        rw [← hcq]
        exact_mod_cast h0
      rw [hdiv, if_pos hge]
      have harg : (x1 : ℚ) + (k : ℚ) * 1 = ((x1 + (k : ℤ) : ℤ) : ℚ) := by
        push_cast
        ring
      rw [harg, pyRound_intCast]
    · have hint : ((ddaSteps (x1 : ℚ) y1 x2 y2 : ℕ) : ℤ) = x1 - x2 := by
        rw [hmaxeq]
        rw [abs_of_nonpos (by omega)]
        ring
      have hcq : ((ddaSteps (x1 : ℚ) y1 x2 y2 : ℕ) : ℚ) = (x1 : ℚ) - x2 := by
        exact_mod_cast congrArg (fun z : ℤ => (z : ℚ)) hint
      have hdiv : ((x2 : ℚ) - (x1 : ℚ)) / (ddaSteps (x1 : ℚ) y1 x2 y2 : ℚ) = -1 := by
        rw [hcq]
        rw [div_eq_iff]
        · ring
        · rw [← hcq]
          exact_mod_cast h0
      rw [hdiv, if_neg (by omega)]
      have harg : (x1 : ℚ) + (k : ℚ) * (-1) = ((x1 + -(k : ℤ) : ℤ) : ℚ) := by
        push_cast
        ring
      rw [harg, pyRound_intCast]
  have coordY : |x2 - x1| ≤ |y2 - y1| → 0 < ddaSteps (x1 : ℚ) y1 x2 y2 →
      ∀ k : ℕ, pyRound ((y1 : ℚ) + (k : ℚ) * (((y2 : ℚ) - (y1 : ℚ)) / (ddaSteps x1 y1 x2 y2 : ℚ)))
        = y1 + (if y1 ≤ y2 then (k : ℤ) else -(k : ℤ)) := by
    intro hdom hpos k
    have h0 : ddaSteps (x1 : ℚ) y1 x2 y2 ≠ 0 := by omega
    have hmaxeq : (ddaSteps (x1 : ℚ) y1 x2 y2 : ℤ) = |y2 - y1| := by
      rw [hsteps]
      exact max_eq_right hdom
    rcases le_or_lt y1 y2 with hge | hlt
    · have hint : ((ddaSteps (x1 : ℚ) y1 x2 y2 : ℕ) : ℤ) = y2 - y1 := by
        rw [hmaxeq]
        exact abs_of_nonneg (by omega)
      have hcq : ((ddaSteps (x1 : ℚ) y1 x2 y2 : ℕ) : ℚ) = (y2 : ℚ) - y1 := by
        exact_mod_cast congrArg (fun z : ℤ => (z : ℚ)) hint
      have hdiv : ((y2 : ℚ) - (y1 : ℚ)) / (ddaSteps (x1 : ℚ) y1 x2 y2 : ℚ) = 1 := by
        rw [hcq]
        refine div_self ?_
        rw [← hcq]
        exact_mod_cast h0
      rw [hdiv, if_pos hge]
      have harg : (y1 : ℚ) + (k : ℚ) * 1 = ((y1 + (k : ℤ) : ℤ) : ℚ) := by
        push_cast
        ring
      rw [harg, pyRound_intCast]
    · have hint : ((ddaSteps (x1 : ℚ) y1 x2 y2 : ℕ) : ℤ) = y1 - y2 := by
        rw [hmaxeq]
        rw [abs_of_nonpos (by omega)]
        ring
      have hcq : ((ddaSteps (x1 : ℚ) y1 x2 y2 : ℕ) : ℚ) = (y1 : ℚ) - y2 := by
        exact_mod_cast congrArg (fun z : ℤ => (z : ℚ)) hint
      have hdiv : ((y2 : ℚ) - (y1 : ℚ)) / (ddaSteps (x1 : ℚ) y1 x2 y2 : ℚ) = -1 := by
        rw [hcq]
        rw [div_eq_iff]
        · ring
        · rw [← hcq]
          exact_mod_cast h0
      rw [hdiv, if_neg (by omega)]
      have harg : (y1 : ℚ) + (k : ℚ) * (-1) = ((y1 + -(k : ℤ) : ℤ) : ℚ) := by
        push_cast
        ring
      rw [harg, pyRound_intCast]
  have chainX : |y2 - y1| ≤ |x2 - x1| →
      (drawLineDda x1 y1 x2 y2).Chain' (fun p q => |q.1 - p.1| ≤ 1) := by
    intro hdom
    by_cases h0 : ddaSteps (x1 : ℚ) y1 x2 y2 = 0
    · rw [(hzero h0).1]
      simp
    · have hpos : 0 < ddaSteps (x1 : ℚ) y1 x2 y2 := Nat.pos_of_ne_zero h0
      rw [hmap hpos, List.chain'_map, List.chain'_range_succ]
      intro m _
      simp only
      rw [coordX hdom hpos m, coordX hdom hpos (m + 1)]
      rcases le_or_lt x1 x2 with hge | hlt
      · simp only [if_pos hge]
        push_cast
        ring_nf
        norm_num
      · simp only [if_neg (show ¬ x1 ≤ x2 by omega)]
        push_cast
        ring_nf
        norm_num
  have chainY : |x2 - x1| ≤ |y2 - y1| →
      (drawLineDda x1 y1 x2 y2).Chain' (fun p q => |q.2 - p.2| ≤ 1) := by
    intro hdom
    by_cases h0 : ddaSteps (x1 : ℚ) y1 x2 y2 = 0
    · rw [(hzero h0).1]
      simp
    · have hpos : 0 < ddaSteps (x1 : ℚ) y1 x2 y2 := Nat.pos_of_ne_zero h0
      rw [hmap hpos, List.chain'_map, List.chain'_range_succ]
      intro m _
      simp only
      rw [coordY hdom hpos m, coordY hdom hpos (m + 1)]
      rcases le_or_lt y1 y2 with hge | hlt
      · simp only [if_pos hge]
        push_cast
        ring_nf
        norm_num
      · simp only [if_neg (show ¬ y1 ≤ y2 by omega)]
        push_cast
        ring_nf
        norm_num
  have hconc1 : drawLineDda 0 0 10 0 =
      [(0, 0), (1, 0), (2, 0), (3, 0), (4, 0), (5, 0),
       (6, 0), (7, 0), (8, 0), (9, 0), (10, 0)] := by
    have hs10 : ddaSteps 0 0 10 0 = 10 := by
      unfold ddaSteps pyInt
      norm_num [abs_of_nonneg]
      rfl
    rw [drawLineDda, hs10]
    norm_num
    rw [ddaLoop_eq_map]
    norm_num [List.range_succ, pyRound]
  have hconc2 : drawLineDda 0 0 0 0 = [(0, 0)] := by
    have hs0 : ddaSteps 0 0 0 0 = 0 := by
      unfold ddaSteps pyInt
      norm_num
    rw [drawLineDda, hs0]
    norm_num
  exact ⟨hsteps, hlen, hzero, hmap, chainX, chainY, hconc1, hconc2⟩

/-! ## Claim C2: the midpoint circle outline -/

/-- Claim C2: for every center and every integer radius at least 1, the
outline branch of draw_circle_midpoint runs the decision-variable loop,
which stops exactly when x exceeds y; the emitted point set is closed
under all eight octant reflections about the center; and it is a strict
outline: no emitted point lies strictly inside the circle of radius
r - 1 about the center, so the set has no interior points. -/
theorem draw_circle_midpoint_outline_props (cx cy : ℚ) (r : ℤ) (hr : 1 ≤ r) :
    (∀ p ∈ midpointOutline cx cy r, ∀ f ∈ octMaps cx cy, f p ∈ midpointOutline cx cy r)
    ∧ (∀ p ∈ midpointOutline cx cy r,
        ((r : ℚ) - 1) ^ 2 ≤ (p.1 - cx) ^ 2 + (p.2 - cy) ^ 2)
    ∧ (∀ x y d : ℤ, y < x → midLoop cx cy x y d = []) := by
  refine ⟨?_, ?_, ?_⟩
  · exact fun p hp f hf => midLoop_closed cx cy 0 r (1 - r) p hp f hf
  · intro p hp
    refine midLoop_dist cx cy r hr 0 r (1 - r) le_rfl le_rfl (by ring) (by nlinarith [hr]) p hp
  · intro x y d h
    exact midLoop_of_gt cx cy x y d h

/-- Witness for claim C2 at center (0, 0) and radius 5. -/
theorem draw_circle_midpoint_outline_props_witness :
    (∀ p ∈ midpointOutline 0 0 5, ∀ f ∈ octMaps 0 0, f p ∈ midpointOutline 0 0 5)
    ∧ (∀ p ∈ midpointOutline 0 0 5,
        (((5 : ℤ) : ℚ) - 1) ^ 2 ≤ (p.1 - 0) ^ 2 + (p.2 - 0) ^ 2) := by
  have h := draw_circle_midpoint_outline_props 0 0 5 (by norm_num)
  exact ⟨h.1, h.2.1⟩

/-! ## Claim C3: the fish jump cycle -/

theorem fishIter_succ (i n : ℕ) : fishIter i (n + 1) = fishTick i (fishIter i n) := by
  unfold fishIter
  rw [Function.iterate_succ_apply']

theorem fishIter_idle (i : ℕ) : ∀ n, n ≤ 180 + i * 50 → fishIter i n = ⟨0, n⟩ := by
  intro n
  induction n with
  | zero => intro _; rfl
  | succ n ih =>
    intro h
    rw [fishIter_succ, ih (by omega)]
    simp [fishTick, show ¬ (n + 1 > 180 + i * 50) by omega]

theorem fishIter_jump (i : ℕ) : ∀ t, 1 ≤ t → t ≤ 40 →
    fishIter i (180 + i * 50 + t) = ⟨t, 180 + i * 50 + t⟩ := by
  intro t
  induction t with
  | zero => omega
  | succ t ih =>
    intro _ h40
    rcases Nat.eq_zero_or_pos t with rfl | hpos
    · rw [show 180 + i * 50 + (0 + 1) = (180 + i * 50) + 1 by omega]
      rw [fishIter_succ, fishIter_idle i (180 + i * 50) le_rfl]
      simp [fishTick, show 180 + i * 50 + 1 > 180 + i * 50 by omega]
    · rw [show 180 + i * 50 + (t + 1) = (180 + i * 50 + t) + 1 by omega]
      rw [fishIter_succ, ih hpos (by omega)]
      simp only [fishTick]
      rw [if_pos (by omega), if_neg (by omega)]

theorem fishIter_reset (i : ℕ) : fishIter i (180 + i * 50 + 41) = ⟨0, 0⟩ := by
  rw [show 180 + i * 50 + 41 = (180 + i * 50 + 40) + 1 by omega]
  rw [fishIter_succ, fishIter_jump i 40 (by omega) le_rfl]
  simp [fishTick]

/-- Claim C3: each of the four fish stays idle with its timer counting
up through tick 180 + 50 i, starts its jump with phase 1 on the very
next tick (the tick on which the incremented timer first exceeds the
threshold 180 + 50 i), holds phase t exactly t ticks after the trigger
tick for t between 1 and 40, and is idle with both counters reset to
zero exactly at t = 41; the vertical offset is 35 sin(pi phase / 40),
zero at phases 0 and 40 and peaking at 35 at phase 20; and the splash is
drawn exactly at the phases 1, 2, 3, 37, 38, 39, 40. -/
theorem fish_jump_cycle (i : ℕ) (_hi : i < 4) :
    (∀ n, n ≤ 180 + i * 50 → fishIter i n = ⟨0, n⟩)
    ∧ fishIter i (181 + i * 50) = ⟨1, 181 + i * 50⟩
    ∧ (∀ t, 1 ≤ t → t ≤ 40 → fishIter i (180 + i * 50 + t) = ⟨t, 180 + i * 50 + t⟩)
    ∧ fishIter i (180 + i * 50 + 41) = ⟨0, 0⟩
    ∧ jumpHeight 0 = 0
    ∧ jumpHeight 40 = 0
    ∧ jumpHeight 20 = 35
    ∧ (∀ p : ℕ, jumpHeight p ≤ 35)
    ∧ (∀ j : ℕ, drawsSplash j = true ↔ j ∈ splashFrames) := by
  refine ⟨fishIter_idle i, ?_, fishIter_jump i, fishIter_reset i, ?_, ?_, ?_, ?_, ?_⟩
  · have := fishIter_jump i 1 le_rfl (by omega)
    rw [show 180 + i * 50 + 1 = 181 + i * 50 by omega] at this
    exact this
  · simp [jumpHeight]
  · have : ((40 : ℕ) / 40 : ℝ) * Real.pi = Real.pi := by norm_num
    rw [jumpHeight, this, Real.sin_pi, mul_zero]
  · have : ((20 : ℕ) / 40 : ℝ) * Real.pi = Real.pi / 2 := by
      push_cast
      ring
    rw [jumpHeight, this, Real.sin_pi_div_two, mul_one]
  · intro p
    have hs := Real.sin_le_one (((p : ℕ) / 40 : ℝ) * Real.pi)
    unfold jumpHeight
    nlinarith [hs]
  · intro j
    constructor
    · intro h
      simp only [drawsSplash, Bool.and_eq_true, decide_eq_true_eq] at h
      exact h.2
    · intro h
      have hj : 0 < j := by
        fin_cases h <;> norm_num
      simp only [drawsSplash, Bool.and_eq_true, decide_eq_true_eq]
      exact ⟨hj, h⟩

/-- Witness for claim C3 at fish index 0: idle through tick 180, phase
20 at 20 ticks after the trigger, idle with cleared counters at 41
ticks after the trigger, and the height peak. -/
theorem fish_jump_cycle_witness :
    fishIter 0 180 = ⟨0, 180⟩
    ∧ fishIter 0 181 = ⟨1, 181⟩
    ∧ fishIter 0 200 = ⟨20, 200⟩
    ∧ fishIter 0 221 = ⟨0, 0⟩
    ∧ jumpHeight 20 = 35
    ∧ (drawsSplash 38 = true ↔ 38 ∈ splashFrames) := by
  obtain ⟨h1, h2, h3, h4, _, _, h7, _, h9⟩ := fish_jump_cycle 0 (by decide)
  refine ⟨?_, ?_, ?_, ?_, h7, h9 38⟩
  · simpa using h1 180 (by decide)
  · simpa using h2
  · simpa using h3 20 (by decide) (by decide)
  · simpa using h4

/-! ## Claim C5: circles with nonpositive radius -/

/-- Claim C5, refutation of the claim as stated: the filled path has no
radius guard and emits its full 34-vertex triangle fan even at radius
-1, and the outline path at radius 0 emits eight points (all at the
center) rather than nothing. -/
theorem circle_nonpositive_radius_counterexample :
    (drawCircleFan 0 0 (-1) 32).length = 34
    ∧ midpointOutline 0 0 0 ≠ [] := by
  constructor
  · rw [drawCircleFan]
    simp [List.length_cons, List.length_map, List.length_range]
  · intro h
    rw [midpointOutline, midLoop_of_le 0 0 0 0 (1 - 0) le_rfl] at h
    simp [plot8] at h

/-- Claim C5, amended: no circle path crashes on nonpositive radius,
but only the outline path with strictly negative radius draws nothing;
the outline path at radius 0 emits eight coincident points at the
center, and the filled path emits its segments + 2 fan vertices for
every radius, positive or not. -/
theorem circle_nonpositive_radius_behavior :
    (∀ (cx cy r : ℝ) (segs : ℕ), (drawCircleFan cx cy r segs).length = segs + 2)
    ∧ (∀ (cx cy : ℚ) (r : ℤ), r < 0 → midpointOutline cx cy r = [])
    ∧ (∀ cx cy : ℚ, midpointOutline cx cy 0 = List.replicate 8 (cx, cy)) := by
  refine ⟨?_, ?_, ?_⟩
  · intro cx cy r segs
    rw [drawCircleFan]
    simp [List.length_cons, List.length_map, List.length_range]
  · intro cx cy r hr
    exact midLoop_of_gt cx cy 0 r (1 - r) (by omega)
  · intro cx cy
    rw [midpointOutline, midLoop_of_le cx cy 0 0 (1 - 0) le_rfl]
    rw [if_neg (by norm_num)]
    rw [midLoop_of_gt cx cy (0 + 1) (0 - 1) _ (by omega)]
    simp [plot8, List.replicate]

/-- Witness for claim C5 at radius -1 and center (0, 0). -/
theorem circle_nonpositive_radius_behavior_witness :
    ((-1 : ℤ) < 0) ∧ midpointOutline 0 0 (-1) = [] := by
  exact ⟨by norm_num, circle_nonpositive_radius_behavior.2.1 0 0 (-1) (by norm_num)⟩

/-! ## Claim C6: the cloud offset and the cluster wrap -/

theorem cloudIter_succ (n : ℕ) : cloudIter (n + 1) = cloudStep (cloudIter n) := by
  unfold cloudIter
  rw [Function.iterate_succ_apply']

theorem cloudIter_closed (n : ℕ) (h : n ≤ 15000) : cloudIter n = (2 / 25 : ℚ) * n := by
  induction n with
  | zero => simp [cloudIter]
  | succ n ih =>
    rw [cloudIter_succ, ih (by omega)]
    have hq : (n : ℚ) ≤ 14999 := by exact_mod_cast (show n ≤ 14999 by omega)
    unfold cloudStep
    rw [if_neg (by push_cast; norm_num; linarith)]
    push_cast
    norm_num
    ring

/-- Claim C6, refutation of the claim as stated: at the reachable shared
offset 300 (tick 3750), the third cluster (base 750, multiplier 1.2) has
scaled offset 360, far below window width + 200 = 1200, yet the source
wraps it because its screen position 1110 exceeds window width + 100 =
1100; the claimed wrap rule leaves it at 1110 while the source shows it
at -90. -/
theorem cloud_cluster_wrap_counterexample :
    cloudIter 3750 = 300
    ∧ cloudClusterX 750 1.2 300 = -90
    ∧ cloudClusterXSpec 750 1.2 300 = 1110
    ∧ cloudClusterX 750 1.2 300 ≠ cloudClusterXSpec 750 1.2 300 := by
  have h1 : cloudIter 3750 = 300 := by
    rw [cloudIter_closed 3750 (by omega)]
    norm_num
  refine ⟨h1, ?_, ?_, ?_⟩ <;> norm_num [cloudClusterX, cloudClusterXSpec]

/-- Claim C6, amended: the shared offset gains 0.08 per tick and resets
to 0 once it exceeds window width + 200 = 1200; each cluster wraps when
its screen position, the cluster base plus the scaled offset, exceeds
window width + 100 = 1100, by subtracting window width + 200 = 1200; the
four cluster multipliers are 1.0, 0.8, 1.2 and 0.6. -/
theorem cloud_wrap_behavior :
    (∀ c : ℚ, (¬ c + 0.08 > 1200 → cloudStep c = c + 0.08)
      ∧ (c + 0.08 > 1200 → cloudStep c = 0))
    ∧ (∀ base mult off : ℚ,
        (¬ base + off * mult > 1100 → cloudClusterX base mult off = base + off * mult)
        ∧ (base + off * mult > 1100 →
            cloudClusterX base mult off = base + off * mult - 1200))
    ∧ cloudClusters = [(150, 1.0), (420, 0.8), (750, 1.2), (320, 0.6)] := by
  refine ⟨?_, ?_, rfl⟩
  · intro c
    constructor
    · intro h
      simp [cloudStep, h]
    · intro h
      simp [cloudStep, h]
  · intro base mult off
    constructor
    · intro h
      simp [cloudClusterX, h]
    · intro h
      simp [cloudClusterX, h]

/-- Witness for claim C6 at shared offset 0 and the first cluster. -/
theorem cloud_wrap_behavior_witness :
    cloudStep 0 = 0 + 0.08 ∧ cloudClusterX 150 1 0 = 150 + 0 * 1 := by
  constructor
  · exact (cloud_wrap_behavior.1 0).1 (by norm_num)
  · exact (cloud_wrap_behavior.2.1 150 1 0).1 (by norm_num)

/-! ## Claim C7: the deer direction coupling -/

/-- Claim C7: each tick both deer move by their own speed times the
shared direction; the flip of the shared direction is decided by the
first deer position alone (the second deer is never consulted), and it
takes effect on the following tick: from direction  1 and first deer at
449.9, one tick later the first deer sits at 450.2 and the direction has
flipped to -1, so on the next tick both deer move backward, the second
deer in lock-step regardless of its own position. -/
theorem deer_coupling :
    (∀ s : DeerS, (deerTick s).d1 = s.d1 + 0.3 * s.dir
      ∧ (deerTick s).d2 = s.d2 + 0.25 * s.dir)
    ∧ (∀ s : DeerS, (deerTick s).dir =
        if s.d1 + 0.3 * s.dir > 450 ∨ s.d1 + 0.3 * s.dir < 280 then -s.dir else s.dir)
    ∧ (∀ s s' : DeerS, s'.d1 = s.d1 → s'.dir = s.dir → (deerTick s').dir = (deerTick s).dir)
    ∧ (∀ d2 : ℚ,
        (deerTick ⟨449.9, d2, 1⟩).d1 = 450.2
        ∧ (deerTick ⟨449.9, d2, 1⟩).dir = -1
        ∧ (deerTick (deerTick ⟨449.9, d2, 1⟩)).d2 = (d2 + 0.25) - 0.25
        ∧ (deerTick (deerTick ⟨449.9, d2, 1⟩)).d1 = 450.2 - 0.3) := by
  refine ⟨fun s => ⟨rfl, rfl⟩, fun s => rfl, ?_, ?_⟩
  · intro s s' h1 h2
    simp [deerTick, h1, h2]
  · intro d2
    have hstep : deerTick ⟨449.9, d2, 1⟩ = ⟨450.2, d2 + 0.25, -1⟩ := by
      unfold deerTick
      norm_num
    have hstep2 : deerTick (⟨450.2, d2 + 0.25, -1⟩ : DeerS)
        = ⟨450.2 - 0.3, d2 + 0.25 - 0.25, -1⟩ := by
      unfold deerTick
      norm_num
    refine ⟨?_, ?_, ?_, ?_⟩
    · rw [hstep]
    · rw [hstep]
    · rw [hstep, hstep2]
    · rw [hstep, hstep2]

/-! ## Claim C8: the first bus -/

theorem busIter_succ (n : ℕ) : busIter (n + 1) = busStep (busIter n) := by
  unfold busIter
  rw [Function.iterate_succ_apply']

theorem busIter_closed (n : ℕ) (h : n ≤ 1100) : busIter n = -200 + (6 / 5 : ℚ) * n := by
  induction n with
  | zero => simp [busIter]
  | succ n ih =>
    rw [busIter_succ, ih (by omega)]
    have hq : (n : ℚ) ≤ 1099 := by exact_mod_cast (show n ≤ 1099 by omega)
    unfold busStep
    rw [if_neg (by push_cast; norm_num; linarith)]
    push_cast
    norm_num
    ring

theorem busIter_1100 : busIter 1100 = 1120 := by
  rw [busIter_closed 1100 le_rfl]
  norm_num

theorem busIter_1101 : busIter 1101 = -200 := by
  rw [show (1101 : ℕ) = 1100 + 1 by omega, busIter_succ, busIter_1100]
  unfold busStep
  rw [if_pos (by norm_num)]

/-- Claim C8, refutation of the claim as stated: the position sequence
is not periodic with period 1100: the position at tick 1100 is 1120,
the exact wrap threshold, not the initial -200; the reset happens one
tick later, so the fundamental period is 1101. -/
theorem bus_period_1100_counterexample :
    busIter 1100 = 1120 ∧ busIter 0 = -200 ∧ busIter 1100 ≠ busIter 0 := by
  refine ⟨busIter_1100, rfl, ?_⟩
  rw [busIter_1100]
  show (1120 : ℚ) ≠ busIter 0
  show (1120 : ℚ) ≠ -200
  norm_num

/-- Claim C8, amended: over any number of ticks the first bus position
stays inside [-200, 1120], and the position sequence is periodic with
period 1101 = (1120 - (-200)) / 1.2 + 1: climbing from -200 to the
threshold 1120 takes 1100 ticks and the wrap back to -200 takes one
more. -/
theorem bus_wrap_bounded_periodic :
    (∀ n : ℕ, -200 ≤ busIter n ∧ busIter n ≤ 1120)
    ∧ (∀ n : ℕ, busIter (n + 1101) = busIter n)
    ∧ busIter 1100 = 1120
    ∧ busIter 1101 = -200 := by
  refine ⟨?_, ?_, busIter_1100, busIter_1101⟩
  · intro n
    induction n with
    | zero =>
      constructor <;> norm_num [busIter]
    | succ n ih =>
      rw [busIter_succ]
      unfold busStep
      by_cases h : busIter n + 1.2 > 1120
      · rw [if_pos h]
        constructor <;> norm_num
      · rw [if_neg h]
        push_neg at h
        constructor <;> linarith [ih.1, ih.2]
  · intro n
    unfold busIter
    rw [Function.iterate_add_apply]
    congr 1
    exact busIter_1101

/-! ## Claim C9: the frame loop and the quit tick -/

/-- Claim C9, refutation of the claim as stated: a tick whose poll
observes the quit signal still performs the full actor update: starting
the loop from the initial state with an immediate quit leaves the first
bus at -198.8, moved from its initial -200, so actor positions do
change on the tick in which quit is received. -/
theorem quit_tick_still_updates_counterexample :
    (frameLoop [true] animInit).bus = -198.8
    ∧ animInit.bus = -200
    ∧ (frameLoop [true] animInit).bus ≠ animInit.bus := by
  have h : (frameLoop [true] animInit).bus = -198.8 := by
    show (tickUpdate animInit).bus = -198.8
    simp [tickUpdate, busStep, animInit]
    norm_num
  refine ⟨h, rfl, ?_⟩
  rw [h]
  show (-198.8 : ℚ) ≠ animInit.bus
  show (-198.8 : ℚ) ≠ -200
  norm_num

/-- Claim C9, amended: polling happens at the top of the tick, but a
quit observation only clears the running flag; the tick body, including
every actor update and the draw calls that follow it in the source,
still runs in full on that same tick, and the loop exits before the
next tick, after which the state never changes again. -/
theorem frame_loop_quit_behavior :
    (∀ (qs : List Bool) (s : AnimState), frameLoop (true :: qs) s = tickUpdate s)
    ∧ (∀ (qs : List Bool) (s : AnimState),
        frameLoop (false :: qs) s = frameLoop qs (tickUpdate s))
    ∧ (tickUpdate animInit).bus = -198.8
    ∧ animInit.bus = -200 := by
  refine ⟨fun qs s => rfl, fun qs s => rfl, ?_, rfl⟩
  simp [tickUpdate, busStep, animInit]
  norm_num

/-! ## Claim C10: the second deer is an affine image of the first -/

/-- Inductive invariant of the deer update: the direction is a sign,
the first deer stays on the 0.3-grid through 320 inside
[279.8, 450.2], the direction has already flipped whenever the first
deer sits beyond a bound, and the second deer is the affine image of
the first with ratio 0.25 / 0.3 = 5 / 6. -/
def deerInvariant (s : DeerS) : Prop :=
  (s.dir = 1 ∨ s.dir = -1)
  ∧ 279.8 ≤ s.d1 ∧ s.d1 ≤ 450.2
  ∧ (450 < s.d1 → s.dir = -1)
  ∧ (s.d1 < 280 → s.dir = 1)
  ∧ (∃ k : ℤ, s.d1 = 320 + 0.3 * k)
  ∧ s.d2 - 380 = (5 / 6) * (s.d1 - 320)

theorem deerInvariant_init : deerInvariant deerInit := by
  refine ⟨Or.inl rfl, by norm_num [deerInit], by norm_num [deerInit], ?_, ?_, ⟨0, ?_⟩, ?_⟩
  · intro h
    norm_num [deerInit] at h
  · intro h
    norm_num [deerInit] at h
  · norm_num [deerInit]
  · norm_num [deerInit]

theorem deerInvariant_step (s : DeerS) (h : deerInvariant s) :
    deerInvariant (deerTick s) := by
  obtain ⟨hdir, hlo, hhi, hhiflag, hloflag, ⟨k, hk⟩, haff⟩ := h
  have hd1 : (deerTick s).d1 = s.d1 + 0.3 * s.dir := rfl
  have hd2 : (deerTick s).d2 = s.d2 + 0.25 * s.dir := rfl
  have hdirEq : (deerTick s).dir =
      if s.d1 + 0.3 * s.dir > 450 ∨ s.d1 + 0.3 * s.dir < 280 then -s.dir else s.dir := rfl
  rcases hdir with h1 | h1
  · -- direction 1: the first deer cannot already sit past 450
    have hle450 : s.d1 ≤ 450 := by
      by_contra hgt
      push_neg at hgt
      have := hhiflag hgt
      rw [h1] at this
      norm_num at this
    have hkZ : (3 * k : ℤ) ≤ 1300 := by
      have hq : (3 * k : ℚ) ≤ 1300 := by
        rw [hk] at hle450
        linarith
      exact_mod_cast hq
    have hk433 : k ≤ 433 := by omega
    have hd449 : s.d1 ≤ 449.9 := by
      rw [hk]
      have : (k : ℚ) ≤ 433 := by exact_mod_cast hk433
      linarith
    have hnew : (deerTick s).d1 = s.d1 + 0.3 := by
      rw [hd1, h1, mul_one]
    refine ⟨?_, ?_, ?_, ?_, ?_, ⟨k + 1, ?_⟩, ?_⟩
    · rw [hdirEq]
      by_cases hc : s.d1 + 0.3 * s.dir > 450 ∨ s.d1 + 0.3 * s.dir < 280
      · rw [if_pos hc, h1]
        right
        norm_num
      · rw [if_neg hc, h1]
        left
        rfl
    · rw [hnew]
      linarith
    · rw [hnew]
      linarith
    · intro hgt
      rw [hnew] at hgt
      rw [hdirEq, if_pos (Or.inl (by rw [h1, mul_one]; linarith)), h1]
    · intro hlt
      rw [hnew] at hlt
      linarith
    · rw [hnew, hk]
      push_cast
      ring
    · rw [hnew, hd2, h1]
      linarith [haff]
  · -- direction -1: the first deer cannot already sit below 280
    have hge280 : 280 ≤ s.d1 := by
      by_contra hlt
      push_neg at hlt
      have := hloflag hlt
      rw [h1] at this
      norm_num at this
    have hkZ : (-400 : ℤ) ≤ 3 * k := by
      have hq : (-400 : ℚ) ≤ 3 * k := by
        rw [hk] at hge280
        linarith
      exact_mod_cast hq
    have hk133 : -133 ≤ k := by omega
    have hd280 : 280.1 ≤ s.d1 := by
      rw [hk]
      have : (-133 : ℚ) ≤ (k : ℚ) := by exact_mod_cast hk133
      linarith
    have hnew : (deerTick s).d1 = s.d1 - 0.3 := by
      rw [hd1, h1]
      ring
    refine ⟨?_, ?_, ?_, ?_, ?_, ⟨k - 1, ?_⟩, ?_⟩
    · rw [hdirEq]
      by_cases hc : s.d1 + 0.3 * s.dir > 450 ∨ s.d1 + 0.3 * s.dir < 280
      · rw [if_pos hc, h1]
        left
        norm_num
      · rw [if_neg hc, h1]
        right
        rfl
    · rw [hnew]
      linarith
    · rw [hnew]
      linarith
    · intro hgt
      rw [hnew] at hgt
      linarith
    · intro hlt
      rw [hnew] at hlt
      rw [hdirEq, if_pos (Or.inr (by rw [h1]; push_cast; linarith)), h1]
      norm_num
    · rw [hnew, hk]
      push_cast
      ring
    · rw [hnew, hd2, h1]
      linarith [haff]

theorem deerInvariant_iter (n : ℕ) : deerInvariant (deerIter n) := by
  induction n with
  | zero => exact deerInvariant_init
  | succ n ih =>
    have : deerIter (n + 1) = deerTick (deerIter n) := by
      unfold deerIter
      rw [Function.iterate_succ_apply']
    rw [this]
    exact deerInvariant_step _ ih

/-- Claim C10: in exact arithmetic, every state reachable from the
initial deer state satisfies d2 - 380 = (0.25 / 0.3)(d1 - 320) =
(5 / 6)(d1 - 320), because both deer always move with the same shared
direction sign at speeds in the fixed ratio; consequently the second
deer, never bounds-checked itself, stays inside [346.5, 488.5], the
image of the first deer interval, matching the approximate
[346.6, 488.4] of the claim. -/
theorem deer2_affine_invariant_bounded (n : ℕ) :
    (deerIter n).d2 - 380 = (5 / 6) * ((deerIter n).d1 - 320)
    ∧ 346.5 ≤ (deerIter n).d2 ∧ (deerIter n).d2 ≤ 488.5 := by
  obtain ⟨_, hlo, hhi, _, _, _, haff⟩ := deerInvariant_iter n
  refine ⟨haff, ?_, ?_⟩ <;> linarith

/-! ## Claim C4: lowercase input in the two text renderers -/

/-- On every pair of the table, the uppercase map sends the lowercase
letter to its uppercase form and fixes the uppercase form. -/
theorem pyUpper_pairs :
    ∀ p ∈ asciiLowerUpper, pyUpper p.1 = p.2 ∧ pyUpper p.2 = p.2 := by decide

/-- Claim C4, refutation of the claim as stated: both renderers
uppercase their input before the table lookup, so the lowercase letter
d is not skipped: both renderers draw for it, and they draw exactly the
glyphs of the uppercase D. -/
theorem text_lowercase_counterexample :
    drawTextDda ['d'] 0 0 1 1 ≠ []
    ∧ drawTextMidpointCircle ['d'] 0 0 1 ≠ []
    ∧ drawTextDda ['d'] 0 0 1 1 = drawTextDda ['D'] 0 0 1 1
    ∧ drawTextMidpointCircle ['d'] 0 0 1 = drawTextMidpointCircle ['D'] 0 0 1 := by
  exact ⟨by decide, by decide, rfl, rfl⟩

/-- Claim C4, amended: both strategies uppercase the whole input before
the table lookup.  A lowercase ASCII letter therefore renders exactly
as its uppercase counterpart, glyphs and cursor advance alike, rather
than being skipped; a character whose uppercased form is absent from
the table (and is not the space) is skipped with no drawing and no
cursor advance. -/
theorem draw_text_upper_behavior :
    (∀ c cU : Char, (c, cU) ∈ asciiLowerUpper →
      ∀ (rest : List Char) (x y scale spacing off : ℚ),
        ddaCalls x y scale spacing (c :: rest) off = ddaCalls x y scale spacing (cU :: rest) off)
    ∧ (∀ c cU : Char, (c, cU) ∈ asciiLowerUpper →
      ∀ (rest : List Char) (x y scale off : ℚ),
        mcCalls x y scale (c :: rest) off = mcCalls x y scale (cU :: rest) off)
    ∧ (∀ c : Char, letterLines (pyUpper c) = none → pyUpper c ≠ ' ' →
      ∀ (rest : List Char) (x y scale spacing off : ℚ),
        ddaCalls x y scale spacing (c :: rest) off = ddaCalls x y scale spacing rest off)
    ∧ (∀ c : Char, letterCircles (pyUpper c) = none → pyUpper c ≠ ' ' →
      ∀ (rest : List Char) (x y scale off : ℚ),
        mcCalls x y scale (c :: rest) off = mcCalls x y scale rest off)
    ∧ drawTextDda ['d'] 0 0 1 1 ≠ []
    ∧ drawTextMidpointCircle ['d'] 0 0 1 ≠ [] := by
  refine ⟨?_, ?_, ?_, ?_, by decide, by decide⟩
  · intro c cU hc rest x y scale spacing off
    obtain ⟨h1, h2⟩ := pyUpper_pairs (c, cU) hc
    simp only [ddaCalls, h1, h2]
  · intro c cU hc rest x y scale off
    obtain ⟨h1, h2⟩ := pyUpper_pairs (c, cU) hc
    simp only [mcCalls, h1, h2]
  · intro c h hsp rest x y scale spacing off
    simp only [ddaCalls]
    rw [h]
    simp [hsp]
  · intro c h hsp rest x y scale off
    simp only [mcCalls]
    rw [h]
    simp [hsp]

/-- Witness for claim C4 at the lowercase letter d. -/
theorem draw_text_upper_behavior_witness :
    ddaCalls 0 0 1 1 ['d'] 0 = ddaCalls 0 0 1 1 ['D'] 0
    ∧ mcCalls 0 0 1 ['d'] 0 = mcCalls 0 0 1 ['D'] 0 := by
  have h := draw_text_upper_behavior
  exact ⟨h.1 'd' 'D' (by decide) [] 0 0 1 1 0, h.2.1 'd' 'D' (by decide) [] 0 0 1 0⟩

/-- Witness for claim C1 at the endpoints (0, 0) to (10, 0). -/
theorem draw_line_dda_int_endpoints_witness :
    (ddaSteps ((0 : ℤ) : ℚ) ((0 : ℤ) : ℚ) ((10 : ℤ) : ℚ) ((0 : ℤ) : ℚ) : ℤ)
        = max |(10 : ℤ) - 0| |(0 : ℤ) - 0|
    ∧ (drawLineDda ((0 : ℤ) : ℚ) ((0 : ℤ) : ℚ) ((10 : ℤ) : ℚ) ((0 : ℤ) : ℚ)).Chain'
        (fun p q => |q.1 - p.1| ≤ 1)
    ∧ drawLineDda 0 0 10 0 =
        [(0, 0), (1, 0), (2, 0), (3, 0), (4, 0), (5, 0),
         (6, 0), (7, 0), (8, 0), (9, 0), (10, 0)] := by
  obtain ⟨h1, _, _, _, h5, _, h7, _⟩ := draw_line_dda_int_endpoints 0 0 10 0
  exact ⟨h1, h5 (by norm_num), h7⟩

/-- Witness for claim C7 at the deer state of the documented scenario. -/
theorem deer_coupling_witness :
    (deerTick (⟨449.9, 380, 1⟩ : DeerS)).dir = (deerTick (⟨449.9, 380, 1⟩ : DeerS)).dir
    ∧ (deerTick (⟨449.9, 380, 1⟩ : DeerS)).d1 = 450.2
    ∧ (deerTick (⟨449.9, 380, 1⟩ : DeerS)).dir = -1 := by
  have h := deer_coupling
  exact ⟨h.2.2.1 ⟨449.9, 380, 1⟩ ⟨449.9, 380, 1⟩ rfl rfl, (h.2.2.2 380).1, (h.2.2.2 380).2.1⟩

end LakeSide








